import Mathlib

/-!
Verification development for the pdf-extractor-api repository.

Python strings are embedded as `List Char` (a Python `str` is a sequence of
characters); `str.split(sep)` for a one-character separator is embedded as
`List.splitOn sep`, and `str.split()` (whitespace split, empty pieces dropped)
as `splitOn ' '` followed by dropping empty pieces.  Wall-clock instants are
embedded as `Int` millisecond ticks, so `timedelta(minutes=m)` is `m * 60000`
ticks.  Python exceptions are embedded as the `PyExc` type and fallible code
returns `Except PyExc _`.
-/

/-- Embedding of Python exception values (the message text is irrelevant to the
claims; only which operations raise matters). -/
inductive PyExc
  | indexError
  | valueError
  | attributeError
  | sessionError
  | queryError
  | jobLookupError
  deriving DecidableEq, Repr

/-- `int(s)` applied to an all-digit string: the decimal value of the digits,
accumulated left to right. -/
def digitsToNat (cs : List Char) : Nat :=
  cs.foldl (fun a c => a * 10 + (c.toNat - 48)) 0

/-- The digits-only part of Python `int()`: `some` value iff the string is
nonempty and all characters are decimal digits. -/
def digitsToNatOpt (cs : List Char) : Option Nat :=
  if cs ≠ [] ∧ cs.all (fun c => c.isDigit) then some (digitsToNat cs) else none

/-- Embedding of Python `int(s)` on a string: an optional leading minus sign
followed by decimal digits; `none` embeds `int` raising `ValueError`. -/
def pyInt (cs : List Char) : Option Int :=
  if cs.head? = some '-' then (digitsToNatOpt cs.tail).map (fun n => -(n : Int))
  else (digitsToNatOpt cs).map (fun n => (n : Int))

/-- Embedding of Python `str(n)` / `f"{n}"` for a natural number: its decimal
digit characters, most significant first. -/
def natToDigits (n : Nat) : List Char :=
  if h : n < 10 then [Nat.digitChar n]
  else natToDigits (n / 10) ++ [Nat.digitChar (n % 10)]
  termination_by n
  decreasing_by exact Nat.div_lt_self (by omega) (by omega)

/-!
Data model, from `app/database/models.py`: a `PDFDocument` row owns `Image`
rows (the sweeper reads only `document.images` and each image's `filename`);
`TextContent` rows are created by `PDFRepository.save_text_content`.
`created_at` is an instant in millisecond ticks.
-/

/-- `models.Image`: image metadata row. -/
structure Image where
  document_id : List Char
  page_number : Int
  image_index : Int
  filename : List Char
  deriving DecidableEq, Repr

/-- `models.PDFDocument`: document row, with its `images` relationship. -/
structure PDFDocument where
  id : List Char
  filename : List Char
  original_filename : List Char
  created_at : Int
  images : List Image
  deriving DecidableEq, Repr

/-- `models.TextContent`: extracted page-text row. -/
structure TextContent where
  document_id : List Char
  page_number : Int
  content : List Char
  deriving DecidableEq, Repr

/-!
Persistence layer, from `app/database/repository.py`.  The visible database
state is the list of committed rows; a bulk insert stages rows and commits
them all at once only when the whole call succeeds.
-/

/-- `int(page_key.split()[1])` from `PDFRepository.save_text_content`:
split the page label on whitespace (empty pieces dropped, as Python
`str.split()` does), take the token at index 1 (raising `IndexError` when it
is missing), and parse it as an integer (raising `ValueError` when
malformed). -/
def parse_page_number (k : List Char) : Except PyExc Int :=
  match ((List.splitOn ' ' k).filter (fun t => t ≠ []))[1]? with
  | none => .error .indexError
  | some t =>
    match pyInt t with
    | none => .error .valueError
    | some n => .ok n

/-- The staging loop of `save_text_content`: build one `TextContent` per
entry of `text_data`, raising at the first malformed page label. -/
def stageTextRows (document_id : List Char) :
    List (List Char × List Char) → Except PyExc (List TextContent)
  | [] => .ok []
  | (page_key, content) :: rest => do
    let page_number ← parse_page_number page_key
    let rows ← stageTextRows document_id rest
    pure ({ document_id := document_id, page_number := page_number,
            content := content } :: rows)

/-- `PDFRepository.save_text_content`: stage a `TextContent` row per entry,
then `db.commit()` once at the end.  Returns the committed table after the
call together with the call's outcome: on any raise nothing new is
committed. -/
def save_text_content (committed : List TextContent) (document_id : List Char)
    (text_data : List (List Char × List Char)) :
    List TextContent × Except PyExc (List TextContent) :=
  match stageTextRows document_id text_data with
  | .error e => (committed, .error e)
  | .ok rows => (committed ++ rows, .ok rows)

/-- `PDFRepository.get_document`: `query(PDFDocument).filter(id == document_id).first()` —
the first matching row, or `None` (embedded as `none`) when there is none. -/
def get_document (db : List PDFDocument) (document_id : List Char) :
    Option PDFDocument :=
  (db.filter (fun d => d.id == document_id)).head?

/-- The `ORDER BY created_at DESC` comparator of `list_documents`. -/
def newestFirst (a b : PDFDocument) : Bool :=
  decide (b.created_at ≤ a.created_at)

/-- `PDFRepository.list_documents`: order by `created_at` descending, skip
`skip` rows, return at most `limit` rows. -/
def list_documents (db : List PDFDocument) (skip limit : Nat) :
    List PDFDocument :=
  (((db.mergeSort newestFirst).drop skip).take limit)

/-!
Retention sweeper, from `app/workers/file_cleanup.py`.  The scheduler
lifecycle (`FileCleanupWorker.start` / `stop`) is a two-state machine over the
wrapped `BackgroundScheduler`; we also count invocations of the underlying
scheduler's `start()` and `shutdown()`.
-/

/-- Observable state of the wrapped APScheduler `BackgroundScheduler`. -/
structure BackgroundScheduler where
  running : Bool
  startCalls : Nat
  shutdownCalls : Nat
  deriving DecidableEq, Repr

namespace FileCleanupWorker

/-- `FileCleanupWorker.start`: call the underlying scheduler's `start()`
only when it is not already running. -/
def start (s : BackgroundScheduler) : BackgroundScheduler :=
  if s.running then s
  else { running := true, startCalls := s.startCalls + 1,
         shutdownCalls := s.shutdownCalls }

/-- `FileCleanupWorker.stop`: call the underlying scheduler's `shutdown()`
only when it is running. -/
def stop (s : BackgroundScheduler) : BackgroundScheduler :=
  if s.running then
    { running := false, startCalls := s.startCalls,
      shutdownCalls := s.shutdownCalls + 1 }
  else s

end FileCleanupWorker

/-- Status of one path on the filesystem: absent, present and removable, or
present but `os.remove` raises an `OSError` on it. -/
inductive FileStatus
  | absent
  | present
  | removeFails
  deriving DecidableEq, Repr

/-- Outcome of one deletion attempt inside the sweep: removed, logged as
missing, or the `os.remove` error was caught and logged. -/
inductive FileAction
  | removed
  | notFound
  | failed
  deriving DecidableEq, Repr

/-- Environment a single `cleanup_old_files` run executes against: the clock,
whether acquiring a session or running the query raises, the document rows,
and the two storage directories (a file name maps to its status; names not
listed are absent). -/
structure SweepEnv where
  now : Int
  sessionFails : Bool
  queryFails : Bool
  docs : List PDFDocument
  uploadDir : List (List Char × FileStatus)
  imageDir : List (List Char × FileStatus)
  deriving DecidableEq, Repr

/-- Look a file name up in a directory; unlisted names are absent. -/
def dirStatus (dir : List (List Char × FileStatus)) (name : List Char) :
    FileStatus :=
  (((dir.find? (fun p => p.1 == name)).map (fun p => p.2)).getD .absent)

/-- The per-file `try: if os.path.exists: os.remove ... except` block of the
sweep: never raises, whatever the file's status. -/
def attemptRemove (dir : List (List Char × FileStatus)) (name : List Char) :
    FileAction :=
  match dirStatus dir name with
  | .present => .removed
  | .absent => .notFound
  | .removeFails => .failed

/-- `retention_threshold = datetime.now() - timedelta(minutes=retention_minutes)`
in millisecond ticks. -/
def cutoffOf (now retention_minutes : Int) : Int :=
  now - retention_minutes * 60000

/-- The sweep's selection query:
`db.query(PDFDocument).filter(PDFDocument.created_at < retention_threshold).all()`. -/
def selectOldDocuments (docs : List PDFDocument) (cutoff : Int) :
    List PDFDocument :=
  docs.filter (fun d => decide (d.created_at < cutoff))

/-- What one `cleanup_old_files` run did: the ids it iterated, the per-file
actions it took, the document table after the run, and the exception the
outer `except` swallowed (logged, never re-raised), if any. -/
structure SweepOut where
  processed : List (List Char)
  pdfActions : List (List Char × FileAction)
  imageActions : List (List Char × FileAction)
  docsAfter : List PDFDocument
  swallowed : Option PyExc
  deriving DecidableEq, Repr

/-- The body of `cleanup_old_files` inside the outer `try`: acquire a
session, query the old documents, and for each one attempt to remove its PDF
file and each of its image files, every attempt individually guarded by its
own `try`/`except`.  No statement deletes a document row, so the table is
returned unchanged. -/
def sweepBody (retention_minutes : Int) (env : SweepEnv) :
    Except PyExc SweepOut :=
  if env.sessionFails then .error .sessionError
  else if env.queryFails then .error .queryError
  else
    let old := selectOldDocuments env.docs (cutoffOf env.now retention_minutes)
    .ok { processed := old.map (fun d => d.id)
        , pdfActions :=
            old.map (fun d => (d.filename, attemptRemove env.uploadDir d.filename))
        , imageActions :=
            (old.map (fun d =>
              d.images.map (fun im =>
                (im.filename, attemptRemove env.imageDir im.filename)))).flatten
        , docsAfter := env.docs
        , swallowed := none }

/-- `FileCleanupWorker.cleanup_old_files`: the body wrapped in the outer
`try`/`except Exception` which logs and returns normally, so the caller-visible
result is always a normal return. -/
def cleanup_old_files (retention_minutes : Int) (env : SweepEnv) :
    Except PyExc SweepOut :=
  match sweepBody retention_minutes env with
  | .ok out => .ok out
  | .error e =>
      .ok { processed := [], pdfActions := [], imageActions := []
          , docsAfter := env.docs, swallowed := some e }

/-!
Module-level retention configuration, from the bottom of
`app/workers/file_cleanup.py`.
-/

/-- The module-level block constructing `file_cleanup_worker`:
`getattr(settings, 'FILE_RETENTION_MINUTES', 10)` gives the settings-derived
value (10 when the attribute is unset); a non-empty environment value that
parses as an integer overrides it, an unparsable one is caught by the inner
`except ValueError` and leaves the settings-derived value in place; if
construction inside the outer `try` fails, the `except` branch builds the
worker with the hard default 10. -/
def resolve_retention_minutes (settingsVal : Option Int)
    (envVal : Option (List Char)) (constructionFails : Bool) : Int :=
  if constructionFails then 10
  else
    let fromSettings := settingsVal.getD 10
    match envVal with
    | none => fromSettings
    | some s =>
      if s = [] then fromSettings
      else
        match pyInt s with
        | some n => n
        | none => fromSettings

/-!
Worker-status endpoint, from `app/controllers/worker_controller.py`.
-/

/-- A scheduled APScheduler job; only its `next_run_time` (already rendered
by `isoformat()`) is read by the endpoint. -/
structure SchedJob where
  next_run_time : List Char
  deriving DecidableEq, Repr

/-- The scheduler interrogation the endpoint performs: the `running` flag
(attribute read, never raises), `get_job("cleanup_old_files")` (may raise, or
return `None`), and `get_jobs()` (may raise). -/
structure SchedulerQuery where
  running : Bool
  getJob : Except PyExc (Option SchedJob)
  getJobs : Except PyExc (List SchedJob)
  deriving Repr

/-- The response dictionary built by `get_worker_status` (the source builds
exactly these four keys; there is no `error` key). -/
structure WorkerStatusResp where
  running : Bool
  retention_minutes : Int
  next_run : Option (List Char)
  job_count : Nat
  deriving DecidableEq, Repr

/-- `get_worker_status`: build the response dictionary.  `next_run` evaluates
`get_job("cleanup_old_files").next_run_time.isoformat()` only when the
scheduler is running (`None` otherwise; a `None` job makes the attribute
access raise), and `job_count` evaluates `len(get_jobs())`.  There is no
`try`/`except` anywhere in the endpoint, so any raise propagates to the
caller. -/
def get_worker_status (retention_minutes : Int) (q : SchedulerQuery) :
    Except PyExc WorkerStatusResp := do
  let next_run ←
    if q.running then do
      let j ← q.getJob
      match j with
      | none => Except.error PyExc.attributeError
      | some job => pure (some job.next_run_time)
    else pure none
  let jobs ← q.getJobs
  pure { running := q.running, retention_minutes := retention_minutes,
         next_run := next_run, job_count := jobs.length }

/-!
Image-filename scheme, from `app/utils/file_utils.py`.
-/

/-- `parse_image_filename`: split on `'_'`; `parts[0]` is the document id,
`int(parts[2])` the page number, `int(parts[4].split('.')[0])` the image
index.  A missing part raises `IndexError`, a malformed number
`ValueError`. -/
def parse_image_filename (filename : List Char) :
    Except PyExc (List Char × Int × Int) :=
  let parts := List.splitOn '_' filename
  match parts[0]? with
  | none => .error .indexError
  | some document_id =>
    match parts[2]? with
    | none => .error .indexError
    | some p2 =>
      match pyInt p2 with
      | none => .error .valueError
      | some page_num =>
        match parts[4]? with
        | none => .error .indexError
        | some p4 =>
          match pyInt ((List.splitOn '.' p4).headD []) with
          | none => .error .valueError
          | some img_index => .ok (document_id, page_num, img_index)

/-- Modelled from the spec: the accepted image-filename generation scheme
`f"{document_id}_page_{page}_image_{index}.{ext}"` (the extraction service
that generates these names is not under `src/`). -/
def make_image_filename (document_id : List Char) (page index : Nat)
    (ext : List Char) : List Char :=
  document_id ++ ['_', 'p', 'a', 'g', 'e', '_'] ++ natToDigits page
    ++ ['_', 'i', 'm', 'a', 'g', 'e', '_'] ++ natToDigits index
    ++ ['.'] ++ ext

/-- Modelled from the spec: the page label `f"Page {n}"` used as the key of
the extraction result mappings (the extraction service that builds these
labels is not under `src/`). -/
def pageLabel (n : Nat) : List Char :=
  ['P', 'a', 'g', 'e', ' '] ++ natToDigits n

/-!
Helper lemmas about the decimal rendering and Python `int()` embedding.
-/

theorem digitChar_isDigit {d : Nat} (h : d < 10) : (Nat.digitChar d).isDigit = true := by
  interval_cases d <;> decide

theorem digitChar_toNat {d : Nat} (h : d < 10) : (Nat.digitChar d).toNat - 48 = d := by
  interval_cases d <;> decide

theorem natToDigits_ne_nil (n : Nat) : natToDigits n ≠ [] := by
  rw [natToDigits]
  split <;> simp

theorem natToDigits_all_digit (n : Nat) :
    ∀ c ∈ natToDigits n, c.isDigit = true := by
  induction n using Nat.strong_induction_on with
  | _ n ih =>
    rw [natToDigits]
    split
    · intro c hc
      simp only [List.mem_singleton] at hc
      subst hc
      exact digitChar_isDigit (by omega)
    · intro c hc
      rcases List.mem_append.mp hc with h1 | h2
      · exact ih (n / 10) (Nat.div_lt_self (by omega) (by omega)) c h1
      · simp only [List.mem_singleton] at h2
        subst h2
        exact digitChar_isDigit (Nat.mod_lt _ (by omega))

theorem digitsToNat_natToDigits (n : Nat) : digitsToNat (natToDigits n) = n := by
  induction n using Nat.strong_induction_on with
  | _ n ih =>
    rw [natToDigits]
    split
    · next h =>
      simp only [digitsToNat, List.foldl_cons, List.foldl_nil]
      have := digitChar_toNat h
      omega
    · have hrec := ih (n / 10) (Nat.div_lt_self (by omega) (by omega))
      simp only [digitsToNat] at hrec ⊢
      rw [List.foldl_append, hrec]
      simp only [List.foldl_cons, List.foldl_nil]
      have := digitChar_toNat (Nat.mod_lt n (show 0 < 10 by omega))
      omega

theorem not_mem_natToDigits (n : Nat) {c : Char} (hc : c.isDigit = false) :
    c ∉ natToDigits n := by
  intro hmem
  have := natToDigits_all_digit n c hmem
  rw [this] at hc
  exact Bool.true_eq_false.mp hc

theorem digitsToNatOpt_natToDigits (n : Nat) :
    digitsToNatOpt (natToDigits n) = some n := by
  rw [digitsToNatOpt, if_pos, digitsToNat_natToDigits]
  exact ⟨natToDigits_ne_nil n, List.all_eq_true.mpr (natToDigits_all_digit n)⟩

theorem pyInt_natToDigits (n : Nat) : pyInt (natToDigits n) = some (n : Int) := by
  rw [pyInt, if_neg, digitsToNatOpt_natToDigits]
  · rfl
  · intro hhead
    rcases hnil : natToDigits n with _ | ⟨c, cs⟩
    · exact natToDigits_ne_nil n hnil
    · rw [hnil] at hhead
      simp only [List.head?_cons, Option.some.injEq] at hhead
      have hd := natToDigits_all_digit n c (hnil ▸ List.mem_cons_self c cs)
      subst hhead
      simp [Char.isDigit] at hd

theorem sweepBody_ok_docsAfter {retention_minutes : Int} {env : SweepEnv}
    {out : SweepOut} (hb : sweepBody retention_minutes env = .ok out) :
    out.docsAfter = env.docs ∧ out.swallowed = none := by
  unfold sweepBody at hb
  split_ifs at hb <;> cases hb <;> exact ⟨rfl, rfl⟩

/-!
Claim theorems.
-/

/-- C3: a sweep with retention age `r` selects exactly the documents whose
creation time is strictly before `now - r` (so a document created exactly at
the cutoff is not selected, and any strictly older one is). -/
theorem sweep_selects_strictly_older (docs : List PDFDocument) (now r : Int)
    (d : PDFDocument) (hd : d ∈ docs) :
    d ∈ selectOldDocuments docs (cutoffOf now r) ↔
      d.created_at < now - r * 60000 := by
  simp [selectOldDocuments, cutoffOf, List.mem_filter, hd]

/-- Witness for C3: with `retention = 10` minutes and `now = 1000000` ms, a
document created exactly at the cutoff `400000` is not selected, while one
created one millisecond earlier is. -/
theorem sweep_selects_strictly_older_witness :
    ({ id := ['a'], filename := ['a'], original_filename := ['a'],
       created_at := 400000, images := [] } : PDFDocument) ∉
      selectOldDocuments
        [{ id := ['a'], filename := ['a'], original_filename := ['a'],
           created_at := 400000, images := [] }] (cutoffOf 1000000 10)
    ∧ ({ id := ['b'], filename := ['b'], original_filename := ['b'],
         created_at := 399999, images := [] } : PDFDocument) ∈
      selectOldDocuments
        [{ id := ['b'], filename := ['b'], original_filename := ['b'],
           created_at := 399999, images := [] }] (cutoffOf 1000000 10) := by
  constructor
  · intro hmem
    exact absurd ((sweep_selects_strictly_older _ 1000000 10 _
      (List.mem_singleton.mpr rfl)).mp hmem) (by decide)
  · exact (sweep_selects_strictly_older _ 1000000 10 _
      (List.mem_singleton.mpr rfl)).mpr (by decide)

/-- C1 counterexample: a document strictly older than the cutoff, whose
backing files are all missing, is selected by the sweep, and after the sweep
(which returns normally, swallowing nothing) its database row is still
present — the sweep never deletes document rows. -/
theorem cleanup_row_deletion_cex :
    (({ id := ['d'], filename := ['f'], original_filename := ['f'],
        created_at := 0, images := [] } : PDFDocument) ∈
      selectOldDocuments
        [{ id := ['d'], filename := ['f'], original_filename := ['f'],
           created_at := 0, images := [] }] (cutoffOf 1000000 10))
    ∧ cleanup_old_files 10
        { now := 1000000, sessionFails := false, queryFails := false,
          docs := [{ id := ['d'], filename := ['f'], original_filename := ['f'],
                     created_at := 0, images := [] }],
          uploadDir := [], imageDir := [] } =
        .ok { processed := [['d']], pdfActions := [(['f'], .notFound)],
              imageActions := [],
              docsAfter := [{ id := ['d'], filename := ['f'],
                              original_filename := ['f'], created_at := 0,
                              images := [] }],
              swallowed := none } := by
  exact ⟨by decide, rfl⟩

/-- C1 (amended): the sweep never deletes document rows — after the
file-deletion attempts every document row (selected or not, backing files
present or missing) is still in the table, and the sweep still returns
normally. -/
theorem cleanup_preserves_document_rows (retention_minutes : Int)
    (env : SweepEnv) :
    ∃ out, cleanup_old_files retention_minutes env = .ok out ∧
      out.docsAfter = env.docs := by
  unfold cleanup_old_files
  cases hb : sweepBody retention_minutes env with
  | error e => exact ⟨_, rfl, rfl⟩
  | ok out => exact ⟨out, rfl, (sweepBody_ok_docsAfter hb).1⟩

/-- C4: under any combination of failures (session acquisition, query,
individual file removals) the sweep returns normally to its caller, and when
the session and query succeed it iterates every selected document regardless
of per-file failures. -/
theorem cleanup_never_raises_and_processes_all (retention_minutes : Int)
    (env : SweepEnv) :
    (∃ out, cleanup_old_files retention_minutes env = .ok out)
    ∧ (env.sessionFails = false → env.queryFails = false →
        ∃ out, cleanup_old_files retention_minutes env = .ok out
          ∧ out.processed =
              (selectOldDocuments env.docs
                (cutoffOf env.now retention_minutes)).map (fun d => d.id)
          ∧ out.swallowed = none) := by
  constructor
  · unfold cleanup_old_files
    cases sweepBody retention_minutes env with
    | error e => exact ⟨_, rfl⟩
    | ok out => exact ⟨out, rfl⟩
  · intro hs hq
    unfold cleanup_old_files sweepBody
    rw [hs, hq]
    exact ⟨_, rfl, rfl, rfl⟩

/-- Witness for C4: a sweep over one old document whose PDF removal fails and
one old document with a missing image file still returns normally and
processes both documents. -/
theorem cleanup_never_raises_and_processes_all_witness :
    ∃ out, cleanup_old_files 10
        { now := 1000000, sessionFails := false, queryFails := false,
          docs := [{ id := ['a'], filename := ['f'], original_filename := ['f'],
                     created_at := 0, images := [] },
                   { id := ['b'], filename := ['g'], original_filename := ['g'],
                     created_at := 1,
                     images := [{ document_id := ['b'], page_number := 1,
                                  image_index := 0, filename := ['i'] }] }],
          uploadDir := [(['f'], .removeFails)], imageDir := [] } = .ok out
      ∧ out.processed = [['a'], ['b']]
      ∧ out.swallowed = none := by
  obtain ⟨out, h1, h2, h3⟩ :=
    (cleanup_never_raises_and_processes_all 10
      { now := 1000000, sessionFails := false, queryFails := false,
        docs := [{ id := ['a'], filename := ['f'], original_filename := ['f'],
                   created_at := 0, images := [] },
                 { id := ['b'], filename := ['g'], original_filename := ['g'],
                   created_at := 1,
                   images := [{ document_id := ['b'], page_number := 1,
                                image_index := 0, filename := ['i'] }] }],
        uploadDir := [(['f'], .removeFails)], imageDir := [] }).2 rfl rfl
  refine ⟨out, h1, ?_, h3⟩
  rw [h2]
  decide

/-- C6: `start` and `stop` are idempotent transitions of the two-state
scheduler machine: `start` on a stopped scheduler starts it (invoking the
underlying scheduler's `start()` exactly once) and is a no-op on a running
one (the underlying `start()` is not invoked again); `stop` symmetrically. -/
theorem worker_start_stop_idempotent (s : BackgroundScheduler) :
    (s.running = false →
      (FileCleanupWorker.start s).running = true ∧
      (FileCleanupWorker.start s).startCalls = s.startCalls + 1)
    ∧ (s.running = true → FileCleanupWorker.start s = s)
    ∧ (s.running = true →
      (FileCleanupWorker.stop s).running = false ∧
      (FileCleanupWorker.stop s).shutdownCalls = s.shutdownCalls + 1)
    ∧ (s.running = false → FileCleanupWorker.stop s = s) := by
  rcases s with ⟨r, a, b⟩
  cases r <;> simp [FileCleanupWorker.start, FileCleanupWorker.stop]

/-- Witness for C6: concrete transitions of the scheduler state machine. -/
theorem worker_start_stop_idempotent_witness :
    ((FileCleanupWorker.start ⟨false, 0, 0⟩).running = true ∧
      (FileCleanupWorker.start ⟨false, 0, 0⟩).startCalls = 1)
    ∧ FileCleanupWorker.start ⟨true, 1, 0⟩ = ⟨true, 1, 0⟩
    ∧ ((FileCleanupWorker.stop ⟨true, 1, 0⟩).running = false ∧
      (FileCleanupWorker.stop ⟨true, 1, 0⟩).shutdownCalls = 1)
    ∧ FileCleanupWorker.stop ⟨false, 0, 0⟩ = ⟨false, 0, 0⟩ := by
  refine ⟨?_, ?_, ?_, ?_⟩
  · exact (worker_start_stop_idempotent ⟨false, 0, 0⟩).1 rfl
  · exact (worker_start_stop_idempotent ⟨true, 1, 0⟩).2.1 rfl
  · exact (worker_start_stop_idempotent ⟨true, 1, 0⟩).2.2.1 rfl
  · exact (worker_start_stop_idempotent ⟨false, 0, 0⟩).2.2.2 rfl

/-- C2: at the failing input of the repository's own test
(`scheduler.running` true and `get_job` raising), `get_worker_status`
propagates the exception to its caller instead of returning a response with
an `error` field — the handler has no `try`/`except`. -/
theorem worker_status_raises_on_query_failure :
    get_worker_status 10
        { running := true, getJob := .error .jobLookupError,
          getJobs := .ok [] }
      = .error .jobLookupError := rfl

/-- C9: fetching a document by an id that no stored document carries returns
the nothing-found sentinel `none`; the operation is total and never raises. -/
theorem get_document_absent_returns_none (db : List PDFDocument)
    (document_id : List Char) (h : ∀ d ∈ db, d.id ≠ document_id) :
    get_document db document_id = none := by
  have hfil : db.filter (fun d => d.id == document_id) = [] := by
    rw [List.filter_eq_nil_iff]
    intro d hd
    simpa using h d hd
  simp [get_document, hfil]

/-- Witness for C9: a lookup of an id different from every stored one. -/
theorem get_document_absent_returns_none_witness :
    get_document
      [{ id := ['a'], filename := ['f'], original_filename := ['f'],
         created_at := 0, images := [] }] ['x'] = none := by
  exact get_document_absent_returns_none _ _ (by decide)

/-- C7 counterexample: with the settings value `20` and the unparsable
environment value `"abc"`, the resolved retention is `20`, not the
hard-coded default `10` the claim requires. -/
theorem retention_unparsable_env_cex :
    resolve_retention_minutes (some 20) (some ['a', 'b', 'c']) false = 20
    ∧ resolve_retention_minutes (some 20) (some ['a', 'b', 'c']) false ≠ 10 := by
  exact ⟨by decide, by decide⟩

/-- C7 (amended): retention is resolved once at construction: the hard
default 10 when construction fails, or when the settings value is unset and
no environment value overrides; a non-empty parsable environment value
overrides the settings value; an unparsable environment value is caught and
the settings-derived value is kept (10 only when settings is unset). -/
theorem retention_resolution_spec (settingsVal : Option Int)
    (envVal : Option (List Char)) :
    resolve_retention_minutes settingsVal envVal true = 10
    ∧ resolve_retention_minutes none none false = 10
    ∧ (∀ s n, pyInt s = some n → s ≠ [] →
        resolve_retention_minutes settingsVal (some s) false = n)
    ∧ (∀ s, pyInt s = none →
        resolve_retention_minutes settingsVal (some s) false =
          settingsVal.getD 10)
    ∧ resolve_retention_minutes settingsVal none false =
        settingsVal.getD 10 := by
  refine ⟨rfl, rfl, ?_, ?_, rfl⟩
  · intro s n hp hne
    simp [resolve_retention_minutes, hne, hp]
  · intro s hp
    rcases eq_or_ne s [] with rfl | hne
    · simp [resolve_retention_minutes]
    · simp [resolve_retention_minutes, hne, hp]

/-- Witness for C7: a parsable environment value `"15"` overrides the
settings value `20`; an unset environment keeps the settings value; a failed
construction yields the hard default. -/
theorem retention_resolution_spec_witness :
    resolve_retention_minutes (some 20) (some ['1', '5']) false = 15
    ∧ resolve_retention_minutes (some 20) (some ['z']) false = 20
    ∧ resolve_retention_minutes (some 20) none true = 10 := by
  refine ⟨?_, ?_, ?_⟩
  · exact (retention_resolution_spec (some 20) none).2.2.1 ['1', '5'] 15
      (by decide) (by decide)
  · exact ((retention_resolution_spec (some 20) none).2.2.2.1 ['z']
      (by decide)).trans (by decide)
  · exact (retention_resolution_spec (some 20) (some ['2'])).1

/-- C8: `list_documents` returns the stored documents ordered newest-first by
creation time, skipping the first `skip` of that order and returning at most
`limit`: the result is descending in `created_at`, has length at most
`limit`, and is the `skip`/`limit` window of a descending reordering of the
stored documents. -/
theorem list_documents_newest_first_paged (db : List PDFDocument)
    (skip limit : Nat) :
    (list_documents db skip limit).Pairwise
      (fun a b => b.created_at ≤ a.created_at)
    ∧ (list_documents db skip limit).length ≤ limit
    ∧ ∃ sorted : List PDFDocument, sorted.Perm db
        ∧ sorted.Pairwise (fun a b => b.created_at ≤ a.created_at)
        ∧ list_documents db skip limit = (sorted.drop skip).take limit := by
  have htrans : ∀ a b c : PDFDocument, newestFirst a b → newestFirst b c →
      newestFirst a c := by
    intro a b c hab hbc
    simp only [newestFirst, decide_eq_true_eq] at *
    omega
  have htotal : ∀ a b : PDFDocument, newestFirst a b || newestFirst b a := by
    intro a b
    simp only [newestFirst, Bool.or_eq_true, decide_eq_true_eq]
    exact Int.le_total _ _
  have hsorted : (db.mergeSort newestFirst).Pairwise
      (fun a b => b.created_at ≤ a.created_at) := by
    refine (List.sorted_mergeSort htrans htotal db).imp ?_
    intro a b h
    simpa [newestFirst] using h
  have hsub : List.Sublist (list_documents db skip limit)
      (db.mergeSort newestFirst) := by
    unfold list_documents
    exact (List.take_sublist _ _).trans (List.drop_sublist _ _)
  exact ⟨hsorted.sublist hsub, List.length_take_le _ _,
    db.mergeSort newestFirst, List.mergeSort_perm db newestFirst, hsorted, rfl⟩

theorem intercalate_pair (x : Char) (a b : List Char) :
    [x].intercalate [a, b] = a ++ x :: b := by
  simp [List.intercalate, List.intersperse]

theorem intercalate_five (x : Char) (a b c d e : List Char) :
    [x].intercalate [a, b, c, d, e] =
      a ++ x :: (b ++ x :: (c ++ x :: (d ++ x :: e))) := by
  simp [List.intercalate, List.intersperse]

theorem splitOn_pageLabel (n : Nat) :
    List.splitOn ' ' (pageLabel n) =
      [['P', 'a', 'g', 'e'], natToDigits n] := by
  have hrepr : pageLabel n =
      [' '].intercalate [['P', 'a', 'g', 'e'], natToDigits n] := by
    rw [intercalate_pair]
    rfl
  rw [hrepr, List.splitOn_intercalate]
  · intro l hl
    rcases List.mem_cons.mp hl with rfl | hl
    · decide
    · rcases List.mem_singleton.mp hl with rfl
      exact not_mem_natToDigits n (by decide)
  · simp

theorem parse_page_number_pageLabel (n : Nat) :
    parse_page_number (pageLabel n) = .ok (n : Int) := by
  unfold parse_page_number
  rw [splitOn_pageLabel]
  have hfil : ([['P', 'a', 'g', 'e'], natToDigits n].filter
      (fun t => t ≠ [])) = [['P', 'a', 'g', 'e'], natToDigits n] := by
    rw [List.filter_eq_self]
    intro a ha
    rcases List.mem_cons.mp ha with rfl | ha
    · decide
    · rcases List.mem_singleton.mp ha with rfl
      simpa using natToDigits_ne_nil n
  rw [hfil]
  simp [pyInt_natToDigits n]

theorem stageTextRows_error_of_malformed (document_id : List Char)
    (text_data : List (List Char × List Char))
    (h : ∃ p ∈ text_data, ∃ e, parse_page_number p.1 = .error e) :
    ∃ e, stageTextRows document_id text_data = .error e := by
  induction text_data with
  | nil => simp at h
  | cons hd tl ih =>
    rcases hd with ⟨k, c⟩
    obtain ⟨p, hp, e, he⟩ := h
    cases hhd : parse_page_number k with
    | error e' =>
      refine ⟨e', ?_⟩
      simp only [stageTextRows]
      rw [hhd]
      rfl
    | ok m =>
      rcases List.mem_cons.mp hp with rfl | hmem
      · simp only at he
        rw [he] at hhd
        cases hhd
      · obtain ⟨e', he'⟩ := ih ⟨p, hmem, e, he⟩
        refine ⟨e', ?_⟩
        simp only [stageTextRows]
        rw [hhd, he']
        rfl

theorem stageTextRows_ok_of_wellformed (document_id : List Char)
    (text_data : List (List Char × List Char))
    (h : ∀ p ∈ text_data, ∃ m, parse_page_number p.1 = .ok m) :
    ∃ rows, stageTextRows document_id text_data = .ok rows := by
  induction text_data with
  | nil => exact ⟨[], rfl⟩
  | cons hd tl ih =>
    rcases hd with ⟨k, c⟩
    obtain ⟨m, hm⟩ := h (k, c) (List.mem_cons_self (k, c) tl)
    obtain ⟨rows, hrows⟩ := ih (fun p hp => h p (List.mem_cons_of_mem (k, c) hp))
    simp only at hm
    refine ⟨{ document_id := document_id, page_number := m,
              content := c } :: rows, ?_⟩
    simp only [stageTextRows]
    rw [hm, hrows]
    rfl

/-- C5: `save_text_content` parses every page label `"Page N"` to the page
number `N`; when any label in the mapping is malformed the whole call fails
with an error and no rows from that call are committed, and when every label
parses the call commits exactly all of its rows at once. -/
theorem save_text_content_labels_atomic (committed : List TextContent)
    (document_id : List Char) (text_data : List (List Char × List Char))
    (n : Nat) :
    parse_page_number (pageLabel n) = .ok (n : Int)
    ∧ ((∃ p ∈ text_data, ∃ e, parse_page_number p.1 = .error e) →
        (save_text_content committed document_id text_data).1 = committed
        ∧ ∃ e, (save_text_content committed document_id text_data).2 =
            .error e)
    ∧ ((∀ p ∈ text_data, ∃ m, parse_page_number p.1 = .ok m) →
        ∃ rows, save_text_content committed document_id text_data =
          (committed ++ rows, .ok rows)) := by
  refine ⟨parse_page_number_pageLabel n, ?_, ?_⟩
  · intro h
    obtain ⟨e, he⟩ := stageTextRows_error_of_malformed document_id text_data h
    rw [save_text_content, he]
    exact ⟨rfl, e, rfl⟩
  · intro h
    obtain ⟨rows, hrows⟩ := stageTextRows_ok_of_wellformed document_id text_data h
    rw [save_text_content, hrows]
    exact ⟨rows, rfl⟩

/-- Witness for C5: the label `"Page 7"` parses to 7; a call whose second
label is malformed commits nothing and raises; a call whose single label is
`"Page 2"` commits exactly its rows. -/
theorem save_text_content_labels_atomic_witness :
    parse_page_number (pageLabel 7) = .ok (7 : Int)
    ∧ (save_text_content [] ['d'] [(pageLabel 1, ['x']), (['b'], ['y'])]).1 = []
    ∧ ∃ rows, save_text_content [] ['d'] [(pageLabel 2, ['x'])] =
        ([] ++ rows, .ok rows) := by
  refine ⟨(save_text_content_labels_atomic [] ['d'] [] 7).1, ?_, ?_⟩
  · exact ((save_text_content_labels_atomic [] ['d']
      [(pageLabel 1, ['x']), (['b'], ['y'])] 7).2.1
      ⟨(['b'], ['y']),
        List.mem_cons_of_mem _ (List.mem_singleton.mpr rfl),
        .indexError, rfl⟩).1
  · exact (save_text_content_labels_atomic [] ['d']
      [(pageLabel 2, ['x'])] 7).2.2
      (by
        intro p hp
        rcases List.mem_singleton.mp hp with rfl
        exact ⟨2, parse_page_number_pageLabel 2⟩)

theorem splitOn_make_image_filename (document_id ext : List Char)
    (page index : Nat) (h1 : '_' ∉ document_id) (h3 : '_' ∉ ext) :
    List.splitOn '_' (make_image_filename document_id page index ext) =
      [document_id, ['p', 'a', 'g', 'e'], natToDigits page,
       ['i', 'm', 'a', 'g', 'e'], natToDigits index ++ '.' :: ext] := by
  have hrepr : make_image_filename document_id page index ext =
      ['_'].intercalate
        [document_id, ['p', 'a', 'g', 'e'], natToDigits page,
         ['i', 'm', 'a', 'g', 'e'], natToDigits index ++ '.' :: ext] := by
    rw [intercalate_five]
    simp [make_image_filename]
  rw [hrepr, List.splitOn_intercalate]
  · intro l hl
    rcases List.mem_cons.mp hl with rfl | hl
    · exact h1
    rcases List.mem_cons.mp hl with rfl | hl
    · decide
    rcases List.mem_cons.mp hl with rfl | hl
    · exact not_mem_natToDigits page (by decide)
    rcases List.mem_cons.mp hl with rfl | hl
    · decide
    rcases List.mem_singleton.mp hl with rfl
    intro hmem
    rcases List.mem_append.mp hmem with hmem | hmem
    · exact not_mem_natToDigits index (by decide) hmem
    · rcases List.mem_cons.mp hmem with heq | hmem
      · exact absurd heq (by decide)
      · exact h3 hmem
  · simp

/-- C10: parsing a filename generated by the accepted scheme
`{document_id}_page_{page}_image_{index}.{ext}` recovers exactly the
generating triple, whenever the document id contains no underscore and the
extension contains no dot and no underscore. -/
theorem image_filename_round_trip (document_id ext : List Char)
    (page index : Nat) (h1 : '_' ∉ document_id) (h2 : '.' ∉ ext)
    (h3 : '_' ∉ ext) :
    parse_image_filename (make_image_filename document_id page index ext) =
      .ok (document_id, (page : Int), (index : Int)) := by
  unfold parse_image_filename
  rw [splitOn_make_image_filename document_id ext page index h1 h3]
  have hdot : List.splitOn '.' (natToDigits index ++ '.' :: ext) =
      [natToDigits index, ext] := by
    rw [← intercalate_pair, List.splitOn_intercalate]
    · intro l hl
      rcases List.mem_cons.mp hl with rfl | hl
      · exact not_mem_natToDigits index (by decide)
      · rcases List.mem_singleton.mp hl with rfl
        exact h2
    · simp
  simp [hdot, pyInt_natToDigits]

/-- Witness for C10: the filename generated for document `"doc"`, page 3,
image index 2, extension `"png"` parses back to exactly that triple. -/
theorem image_filename_round_trip_witness :
    parse_image_filename
        (make_image_filename ['d', 'o', 'c'] 3 2 ['p', 'n', 'g']) =
      .ok (['d', 'o', 'c'], (3 : Int), (2 : Int)) := by
  exact image_filename_round_trip ['d', 'o', 'c'] ['p', 'n', 'g'] 3 2
    (by decide) (by decide) (by decide)
